import Mathlib

/-!
Verification of the application-facing networking layer
(network/framework2/src/protocols/network/mod.rs): a shallow embedding of
the connection registry (OutboundPeerConnections), the send path
(NetworkSender: send_to / send_to_many / send_rpc) and the inbound event
demultiplexer (NetworkEvents::poll_next), with theorems about their
behaviour.

Machine integers (the AtomicU32 generation and rpc counters) are modelled
as Nat reduced mod 2^32 at each fetch_add, matching Rust wrapping
semantics.  Channels (tokio bounded mpsc) are modelled as a bounded queue
with a closed flag; try_send mirrors tokio semantics (Closed if the
receiver is gone, Full if at capacity).  The embedding is sequential:
lock acquisition always succeeds (the Err(lock-poison) arms of the source
are unreachable in a single-threaded execution and are not modelled).
-/

set_option autoImplicit false

deriving instance DecidableEq for Except

namespace AptosNet

abbrev PeerId := Nat
abbrev ProtocolId := Nat
abbrev RequestId := Nat
abbrev Bytes := List Nat

/-- Composite peer identity: NetworkId + PeerId (aptos_config PeerNetworkId). -/
structure PeerNetworkId where
  network_id : Nat
  peer_id : PeerId
deriving DecidableEq, Repr

/-- Wire-level envelope (protocols/wire/messaging NetworkMessage): four kinds. -/
inductive NetworkMessage where
  | error : NetworkMessage
  | rpcRequest (protocol_id : ProtocolId) (request_id : RequestId) (priority : Nat)
      (raw_request : Bytes) : NetworkMessage
  | rpcResponse (request_id : RequestId) (priority : Nat) (raw_response : Bytes) : NetworkMessage
  | directSendMsg (protocol_id : ProtocolId) (priority : Nat) (raw_msg : Bytes) : NetworkMessage
deriving DecidableEq, Repr

/-- ReceivedMessage: wire envelope plus sending peer. -/
structure ReceivedMessage where
  message : NetworkMessage
  sender : PeerNetworkId
deriving DecidableEq, Repr

/-- Bounded tokio mpsc sender endpoint: a queue with fixed capacity and a
closed flag (set when the receiving side is dropped). -/
structure Chan where
  capacity : Nat
  queue : List NetworkMessage
  closed : Bool
deriving DecidableEq, Repr

inductive TrySendError where
  | full
  | closed
deriving DecidableEq, Repr

/-- tokio try_send: Closed when the receiver is gone, Full when the bounded
capacity is exhausted, otherwise the message is appended. Never suspends. -/
def Chan.try_send (c : Chan) (m : NetworkMessage) : Except TrySendError Chan :=
  if c.closed then .error .closed
  else if c.capacity ≤ c.queue.length then .error .full
  else .ok { c with queue := c.queue ++ [m] }

/-- Modelled from the spec: an OutboundRpcMatcher entry.  The matcher itself
lives in application/interface.rs, which is not among the sources; the spec
describes it as a table request_id -> (completion-slot, protocol-tag,
issued-at, deadline, network, role).  The completion slot is identified by
the request id and carries no further data here. -/
structure RpcEntry where
  protocol_id : ProtocolId
  issued_at : Nat
  deadline : Nat
  network_id : Nat
  role : Nat
deriving DecidableEq, Repr

/-- Per-peer send handle (PeerStub): two bounded outbound channels, a
wrapping rpc request-id counter, the open-RPC correlation table, and the
Closer flag (modelled as its current boolean value). -/
structure PeerStub where
  sender : Chan
  sender_high_prio : Chan
  rpc_counter : Nat
  close : Bool
  open_outbound_rpc : List (RequestId × RpcEntry)
deriving DecidableEq, Repr

/-- Modelled from the spec: OutboundRpcMatcher.insert records a correlation
entry for a fresh request id (the source calls
peer.open_outbound_rpc.insert(request_id, sender, protocol, now, deadline,
network_id, role_type); the matcher implementation is outside the sources). -/
def matcherInsert (table : List (RequestId × RpcEntry)) (request_id : RequestId)
    (e : RpcEntry) : List (RequestId × RpcEntry) :=
  (request_id, e) :: table

/-- Lookup in a peer map (std HashMap::get on PeerNetworkId keys). -/
def mapFind? {β : Type} : List (PeerNetworkId × β) → PeerNetworkId → Option β
  | [], _ => none
  | (k, v) :: rest, k' => if k = k' then some v else mapFind? rest k'

/-- Removal from a peer map (std HashMap::remove; drops every pair at the key). -/
def mapErase {β : Type} : List (PeerNetworkId × β) → PeerNetworkId → List (PeerNetworkId × β)
  | [], _ => []
  | (k, v) :: rest, k' => if k = k' then mapErase rest k' else (k, v) :: mapErase rest k'

/-- Insertion into a peer map (std HashMap::insert; overwrites the key). -/
def mapInsert {β : Type} (l : List (PeerNetworkId × β)) (k : PeerNetworkId) (v : β) :
    List (PeerNetworkId × β) :=
  (k, v) :: mapErase l k

/-- Wrapping u32 arithmetic for AtomicU32 fetch_add. -/
def u32Mod (n : Nat) : Nat := n % 4294967296

/-- OutboundPeerConnections: generation-counted registry of peer send handles. -/
structure OutboundPeerConnections where
  peer_connections : List (PeerNetworkId × PeerStub)
  generation : Nat
deriving DecidableEq, Repr

def OutboundPeerConnections.new : OutboundPeerConnections :=
  { peer_connections := [], generation := 0 }

/-- get_generational: pass a generation number; if it is stale return the
peer map and current generation, otherwise None.  (The source loads the
generation twice, before and after taking the read lock; sequentially the
two loads agree and are modelled as one.) -/
def OutboundPeerConnections.get_generational (r : OutboundPeerConnections) (generation : Nat) :
    Option (List (PeerNetworkId × PeerStub) × Nat) :=
  if generation = r.generation then none
  else some (r.peer_connections, r.generation)

/-- insert: write the pair into the map, then generation.fetch_add(1).
fetch_add returns the PREVIOUS value, so the returned Nat is the
pre-increment generation. -/
def OutboundPeerConnections.insert (r : OutboundPeerConnections) (peer_network_id : PeerNetworkId)
    (peer : PeerStub) : OutboundPeerConnections × Nat :=
  ({ peer_connections := mapInsert r.peer_connections peer_network_id peer,
     generation := u32Mod (r.generation + 1) },
   r.generation)

/-- remove: erase the key from the map, then generation.fetch_add(1);
like insert, the returned Nat is fetch_add's previous value. -/
def OutboundPeerConnections.remove (r : OutboundPeerConnections) (peer_network_id : PeerNetworkId) :
    OutboundPeerConnections × Nat :=
  ({ peer_connections := mapErase r.peer_connections peer_network_id,
     generation := u32Mod (r.generation + 1) },
   r.generation)

/-- NetworkError taxonomy of the direct-send path.  codecError stands for
the serialization errors propagated by the question-mark operator from
protocol.to_bytes; the Error(lock-poison) arm of the source is a
concurrency artifact with no sequential counterpart. -/
inductive NetworkError where
  | notConnected
  | peerFullCondition
  | codecError
deriving DecidableEq, Repr

/-- RpcError taxonomy used by send_rpc.  codecError stands for the
serialization and deserialization errors propagated by the question-mark
operator; applicationError lets the completion slot carry an arbitrary
application-filled error value. -/
inductive RpcError where
  | notConnected (peer : PeerId)
  | timedOut
  | tooManyPending (n : Nat)
  | unexpectedResponseChannelCancel
  | codecError
  | applicationError (code : Nat)
deriving DecidableEq, Repr

/-- NetworkSender state: network id, role (metrics only), and the locally
cached (peer map, generation) pair refreshed lazily from the registry. -/
structure NetworkSenderSt where
  network_id : Nat
  role_type : Nat
  peers : List (PeerNetworkId × PeerStub)
  peers_generation : Nat
deriving DecidableEq, Repr

/-- NetworkSender::update_peers: refresh the cached map from the registry
when the cached generation is stale (clear + extend = replace). -/
def NetworkSenderSt.update_peers (st : NetworkSenderSt) (reg : OutboundPeerConnections) :
    NetworkSenderSt :=
  match reg.get_generational st.peers_generation with
  | none => st
  | some (new_peers, new_generation) =>
    { st with peers := new_peers, peers_generation := new_generation }

/-- NetworkSender::peer_try_send: look the peer up in the cached map
(absent: NotConnected), build the message (closure msg_src, evaluated only
after the lookup), and try_send it on the channel selected by high_prio
(Full: PeerFullCondition, Closed: NotConnected).  Purely non-blocking. -/
def NetworkSenderSt.peer_try_send (st : NetworkSenderSt) (peer_network_id : PeerNetworkId)
    (msg_src : Except NetworkError NetworkMessage) (high_prio : Bool) :
    NetworkSenderSt × Except NetworkError Unit :=
  match mapFind? st.peers peer_network_id with
  | none => (st, .error .notConnected)
  | some peer =>
    match msg_src with
    | .error e => (st, .error e)
    | .ok msg =>
      let ch := if high_prio then peer.sender_high_prio else peer.sender
      match ch.try_send msg with
      | .ok ch' =>
        let peer' := if high_prio then { peer with sender_high_prio := ch' }
                     else { peer with sender := ch' }
        ({ st with peers := mapInsert st.peers peer_network_id peer' }, .ok ())
      | .error .full => (st, .error .peerFullCondition)
      | .error .closed => (st, .error .notConnected)

/-- NetworkSender::send_to: encode under the protocol codec (to_bytes is a
parameter of the model; its failures are converted by the question-mark
operator into the codec error class), wrap as a DirectSendMsg envelope,
refresh the cached peer map, and peer_try_send non-blockingly.  high_prio
stands for protocol_is_high_priority(protocol), a static per-protocol
policy defined outside the sources. -/
def NetworkSenderSt.send_to {TMessage : Type} (st : NetworkSenderSt)
    (reg : OutboundPeerConnections) (recipient : PeerId)
    (to_bytes : TMessage → Except Unit Bytes) (protocol : ProtocolId)
    (message : TMessage) (high_prio : Bool) : NetworkSenderSt × Except NetworkError Unit :=
  let peer_network_id : PeerNetworkId := ⟨st.network_id, recipient⟩
  let msg_src : Except NetworkError NetworkMessage :=
    match to_bytes message with
    | .error _ => .error .codecError
    | .ok mdata => .ok (NetworkMessage.directSendMsg protocol 0 mdata)
  let st := st.update_peers reg
  st.peer_try_send peer_network_id msg_src high_prio

/-- Recipient loop of send_to_many: one peer_try_send per recipient, in
order, threading the sender state; the per-recipient results are returned
for observation (the source pushes the errors into a Vec). -/
def sendToManyLoop (st : NetworkSenderSt) (msg_src : Except NetworkError NetworkMessage)
    (high_prio : Bool) (network_id : Nat) :
    List PeerId → NetworkSenderSt × List (PeerId × Except NetworkError Unit)
  | [] => (st, [])
  | recipient :: rest =>
    let out := st.peer_try_send ⟨network_id, recipient⟩ msg_src high_prio
    let tail := sendToManyLoop out.1 msg_src high_prio network_id rest
    (tail.1, (recipient, out.2) :: tail.2)

/-- Error component of a per-recipient send result, if any (the source
pushes exactly these into its errs vector). -/
def errOf {α : Type} (p : α × Except NetworkError Unit) : Option NetworkError :=
  match p.2 with
  | .error e => some e
  | .ok _ => none

/-- NetworkSender::send_to_many: encode ONCE up front (an encode-invocation
count is returned for observation), refresh the peer map, attempt a
non-blocking enqueue for every recipient, and return Ok when the error list
is empty, otherwise its first element.  Result components: final state,
overall result, number of to_bytes invocations, per-recipient results. -/
def NetworkSenderSt.send_to_many {TMessage : Type} (st : NetworkSenderSt)
    (reg : OutboundPeerConnections) (recipients : List PeerId)
    (to_bytes : TMessage → Except Unit Bytes) (protocol : ProtocolId)
    (message : TMessage) (high_prio : Bool) :
    NetworkSenderSt × Except NetworkError Unit × Nat × List (PeerId × Except NetworkError Unit) :=
  match to_bytes message with
  | .error _ => (st, .error .codecError, 1, [])
  | .ok mdata =>
    let msg_src : Except NetworkError NetworkMessage :=
      .ok (NetworkMessage.directSendMsg protocol 0 mdata)
    let st := st.update_peers reg
    let out := sendToManyLoop st msg_src high_prio st.network_id recipients
    let errs := out.2.filterMap errOf
    match errs.head? with
    | none => (out.1, .ok (), 1, out.2)
    | some e => (out.1, .error e, 1, out.2)

/-- Outcome of the oneshot completion slot: canceled (sender dropped
without a value) or a value Result(Bytes, RpcError) filled by the matcher. -/
inductive OneshotOutcome where
  | canceled
  | value (v : Except RpcError Bytes)
deriving DecidableEq, Repr

/-- Outcome of tokio timeout(sub_timeout, receiver): either the deadline
elapsed before the slot resolved, or the slot completed. -/
inductive TimedWait where
  | elapsed
  | completed (r : OneshotOutcome)
deriving DecidableEq, Repr

/-- Synchronous phase of NetworkSender::send_rpc (the body of the
peers.read() block): look the peer up in the cached map (absent:
NotConnected), encode the request (to_bytes errors propagate), draw the
request id from the peer's wrapping rpc counter (fetch_add returns the
previous value), insert the correlation entry into the matcher, then
try_send the request envelope (Full: TooManyPending(1), Closed:
NotConnected).  The counter bump and the matcher entry persist on every
path that reaches them, including the failed-enqueue paths. -/
def NetworkSenderSt.send_rpc_enqueue {TMessage : Type} (st : NetworkSenderSt)
    (recipient : PeerId) (to_bytes : ProtocolId → TMessage → Except Unit Bytes)
    (protocol : ProtocolId) (req_msg : TMessage) (now deadline : Nat) (high_prio : Bool) :
    NetworkSenderSt × Except RpcError Unit :=
  let peer_network_id : PeerNetworkId := ⟨st.network_id, recipient⟩
  match mapFind? st.peers peer_network_id with
  | none => (st, .error (.notConnected recipient))
  | some peer =>
    match to_bytes protocol req_msg with
    | .error _ => (st, .error .codecError)
    | .ok mdata =>
      let request_id := peer.rpc_counter
      let entry : RpcEntry :=
        { protocol_id := protocol, issued_at := now, deadline := deadline,
          network_id := st.network_id, role := st.role_type }
      let peer1 := { peer with
        rpc_counter := u32Mod (peer.rpc_counter + 1),
        open_outbound_rpc := matcherInsert peer.open_outbound_rpc request_id entry }
      let msg := NetworkMessage.rpcRequest protocol request_id 0 mdata
      let ch := if high_prio then peer1.sender_high_prio else peer1.sender
      match ch.try_send msg with
      | .ok ch' =>
        let peer2 := if high_prio then { peer1 with sender_high_prio := ch' }
                     else { peer1 with sender := ch' }
        ({ st with peers := mapInsert st.peers peer_network_id peer2 }, .ok ())
      | .error .full =>
        ({ st with peers := mapInsert st.peers peer_network_id peer1 },
         .error (.tooManyPending 1))
      | .error .closed =>
        ({ st with peers := mapInsert st.peers peer_network_id peer1 },
         .error (.notConnected recipient))

/-- Await phase of send_rpc: sub_timeout = deadline.checked_duration_since
(now2 is the instant sampled there; None, i.e. deadline already past, gives
TimedOut), then tokio timeout around the completion slot: elapsed gives
TimedOut, a dropped slot gives UnexpectedResponseChannelCancel, a value is
decoded with from_bytes under the request's protocol (errors propagate),
and an error-filled slot returns that error. -/
def send_rpc_await {TMessage : Type} (from_bytes : Bytes → Except Unit TMessage)
    (deadline now2 : Nat) (w : TimedWait) : Except RpcError TMessage :=
  if deadline < now2 then .error .timedOut
  else
    match w with
    | .elapsed => .error .timedOut
    | .completed .canceled => .error .unexpectedResponseChannelCancel
    | .completed (.value (.error err)) => .error err
    | .completed (.value (.ok bytes)) =>
      match from_bytes bytes with
      | .error _ => .error .codecError
      | .ok wat => .ok wat

/-- NetworkSender::send_rpc: deadline = now + timeout sampled at call
start; refresh the cached peer map; run the synchronous enqueue phase; on
its failure return that error immediately (the await phase, and with it the
TimedWait argument, is never consulted); on success run the await phase
with the remaining-time check at now2. -/
def NetworkSenderSt.send_rpc {TMessage : Type} (st : NetworkSenderSt)
    (reg : OutboundPeerConnections) (recipient : PeerId)
    (to_bytes : ProtocolId → TMessage → Except Unit Bytes)
    (from_bytes : ProtocolId → Bytes → Except Unit TMessage)
    (protocol : ProtocolId) (req_msg : TMessage) (timeout now now2 : Nat)
    (high_prio : Bool) (w : TimedWait) : NetworkSenderSt × Except RpcError TMessage :=
  let deadline := now + timeout
  let st := st.update_peers reg
  match st.send_rpc_enqueue recipient to_bytes protocol req_msg now deadline high_prio with
  | (st', .error e) => (st', .error e)
  | (st', .ok _) => (st', send_rpc_await (from_bytes protocol) deadline now2 w)

/-- Application event delivered by the demultiplexer: direct message or
rpc request.  The oneshot completion sender of the source's RpcRequest
variant carries no data and is identified with the request's spawn record. -/
inductive Event (TMessage : Type) where
  | message (sender : PeerNetworkId) (msg : TMessage)
  | rpcRequest (sender : PeerNetworkId) (msg : TMessage) (protocol : ProtocolId)
deriving DecidableEq, Repr

/-- One response of the inbound source to one poll_next call: Pending,
Ready(None) (all underlying channels closed), or Ready(Some message). -/
inductive SourcePoll where
  | pending
  | terminated
  | item (m : ReceivedMessage)
deriving DecidableEq, Repr

/-- Result of one NetworkEvents::poll_next call.  panicked models the
unreachable! hit when an RpcResponse envelope reaches the demultiplexer. -/
inductive PollResult (TMessage : Type) where
  | pendingR
  | readyNone
  | readyEvent (e : Event TMessage)
  | panicked
deriving DecidableEq, Repr

/-- NetworkEvents state: the done latch plus the cached (peer map,
generation) pair. -/
structure EventsSt where
  done : Bool
  peers : List (PeerNetworkId × PeerStub)
  peers_generation : Nat
deriving DecidableEq, Repr

/-- NetworkEvents::update_peers: refresh the cached map from the registry
when the cached generation is stale. -/
def EventsSt.update_peers (st : EventsSt) (reg : OutboundPeerConnections) : EventsSt :=
  match reg.get_generational st.peers_generation with
  | none => st
  | some (new_peers, new_generation) =>
    { st with peers := new_peers, peers_generation := new_generation }

/-- Everything one poll_next call produces: the successor state, the part
of the source trace not yet consumed, the consumed part (observation only;
consumed ++ rest always equals the input trace), the response-relay tasks
spawned during the call (request id, peer, protocol), and the poll result. -/
structure PollOut (TMessage : Type) where
  st : EventsSt
  rest : List SourcePoll
  consumed : List SourcePoll
  spawned : List (RequestId × PeerNetworkId × ProtocolId)
  result : PollResult TMessage
deriving DecidableEq, Repr

/-- Body of the bounded for-loop of NetworkEvents::poll_next, with the
remaining iteration count as fuel (the source loops for _ in 1..10, i.e. 9
iterations).  Each iteration polls the source once: Pending returns
Pending; Ready(None) sets the done latch and ends the stream; an Error
envelope is discarded and the loop continues; an RpcRequest envelope is
decoded (failure sets done and ends the stream; success refreshes the peer
map, drops the request with Pending when the sender is absent, otherwise
spawns the response relay and yields the event); an RpcResponse envelope is
unreachable; a DirectSendMsg envelope is decoded (failure sets done and
ends the stream, success yields the event).  An exhausted trace behaves as
a Pending source. -/
def pollLoop {TMessage : Type} (from_bytes : ProtocolId → Bytes → Except Unit TMessage)
    (reg : OutboundPeerConnections) :
    Nat → EventsSt → List SourcePoll → PollOut TMessage
  | 0, st, src => ⟨st, src, [], [], .pendingR⟩
  | _ + 1, st, [] => ⟨st, [], [], [], .pendingR⟩
  | _ + 1, st, .pending :: rest => ⟨st, rest, [.pending], [], .pendingR⟩
  | _ + 1, st, .terminated :: rest =>
    ⟨{ st with done := true }, rest, [.terminated], [], .readyNone⟩
  | fuel + 1, st, .item m :: rest =>
    match m.message with
    | .error =>
      let o := pollLoop from_bytes reg fuel st rest
      { o with consumed := .item m :: o.consumed }
    | .rpcRequest protocol request_id _prio raw =>
      (match from_bytes protocol raw with
       | .error _ => ⟨{ st with done := true }, rest, [.item m], [], .readyNone⟩
       | .ok app_msg =>
         let st := st.update_peers reg
         match mapFind? st.peers m.sender with
         | none => ⟨st, rest, [.item m], [], .pendingR⟩
         | some _peer_stub =>
           ⟨st, rest, [.item m], [(request_id, m.sender, protocol)],
            .readyEvent (.rpcRequest m.sender app_msg protocol)⟩)
    | .rpcResponse _ _ _ => ⟨st, rest, [.item m], [], .panicked⟩
    | .directSendMsg protocol _prio raw =>
      (match from_bytes protocol raw with
       | .error _ => ⟨{ st with done := true }, rest, [.item m], [], .readyNone⟩
       | .ok app_msg => ⟨st, rest, [.item m], [], .readyEvent (.message m.sender app_msg)⟩)

/-- NetworkEvents::poll_next: when the done latch is set, yield end of
stream immediately without re-polling the source; otherwise run the
9-iteration loop, which returns Pending when the fuel runs out. -/
def poll_next {TMessage : Type} (from_bytes : ProtocolId → Bytes → Except Unit TMessage)
    (reg : OutboundPeerConnections) (st : EventsSt) (src : List SourcePoll) :
    PollOut TMessage :=
  if st.done then ⟨st, src, [], [], .readyNone⟩
  else pollLoop from_bytes reg 9 st src

/-- NetworkEvents::is_terminated (FusedStream): the done latch. -/
def EventsSt.is_terminated (st : EventsSt) : Bool := st.done

/-- True on the source-trace entries whose processing sets the done latch:
source exhaustion, or an RpcRequest or DirectSendMsg envelope whose payload
fails to decode. -/
def causesDone {TMessage : Type} (from_bytes : ProtocolId → Bytes → Except Unit TMessage)
    : SourcePoll → Bool
  | .pending => false
  | .terminated => true
  | .item m =>
    match m.message with
    | .error => false
    | .rpcRequest protocol _ _ raw =>
      (match from_bytes protocol raw with
       | .error _ => true
       | .ok _ => false)
    | .rpcResponse _ _ _ => false
    | .directSendMsg protocol _ raw =>
      (match from_bytes protocol raw with
       | .error _ => true
       | .ok _ => false)

/-- A concrete peer stub used by witnesses and counterexamples: both
channels open with capacity 1, fresh counters, empty matcher. -/
def stub0 : PeerStub :=
  { sender := { capacity := 1, queue := [], closed := false }
    sender_high_prio := { capacity := 1, queue := [], closed := false }
    rpc_counter := 0
    close := false
    open_outbound_rpc := [] }

/-- A concrete peer stub whose channels are open but already at capacity. -/
def stubFull : PeerStub :=
  { sender := { capacity := 1, queue := [NetworkMessage.error], closed := false }
    sender_high_prio := { capacity := 1, queue := [NetworkMessage.error], closed := false }
    rpc_counter := 0
    close := false
    open_outbound_rpc := [] }

/-- A concrete empty registry whose generation matches the concrete
senders' cached generation, so update_peers is a no-op in witnesses. -/
def regEmpty : OutboundPeerConnections := OutboundPeerConnections.new

def pid05 : PeerNetworkId := ⟨0, 5⟩

/-- Concrete sender whose cache holds peer (0,5) with open, empty channels. -/
def senderOpen : NetworkSenderSt := ⟨0, 0, [(pid05, stub0)], 0⟩

/-- Concrete sender whose cache holds peer (0,5) with open, full channels. -/
def senderFull : NetworkSenderSt := ⟨0, 0, [(pid05, stubFull)], 0⟩

/-- Concrete rpc codec: encode a Nat as a one-byte payload. -/
def toBytesN : ProtocolId → Nat → Except Unit Bytes := fun _ n => Except.ok [n]

/-- Concrete rpc codec: decode a payload to its length. -/
def fromBytesN : ProtocolId → Bytes → Except Unit Nat := fun _ b => Except.ok b.length

/-- Concrete direct-send codec: encode a Nat as a one-byte payload. -/
def toBytesNetN : Nat → Except Unit Bytes := fun n => Except.ok [n]

/-- Concrete inbound codec: protocol tag 99 is unregistered (decode fails),
every other tag decodes to the payload length. -/
def fbSel : ProtocolId → Bytes → Except Unit Nat :=
  fun p b => if p = 99 then Except.error () else Except.ok b.length

/-- True on source responses carrying an Error envelope (the ones the
demultiplexer discards). -/
def isErrorEnvelope : SourcePoll → Bool
  | .item m =>
    (match m.message with
     | .error => true
     | _ => false)
  | _ => false

/-- A concrete source response carrying an Error envelope. -/
def errItem : SourcePoll := .item ⟨NetworkMessage.error, ⟨0, 1⟩⟩

/-! ## Claims about the connection registry -/

/-- C2: the claim says insert and remove return the post-increment
generation.  The code performs generation.fetch_add(1), which returns the
PREVIOUS value, so both return the pre-increment generation — contradicting
the source's own doc comments ("return new generation counter").  Evaluated
at the failing input: a fresh registry.  insert returns 0 while the
generation after the call is 1; the subsequent remove returns 1 while the
generation after it is 2. -/
theorem C2_insert_remove_return_pre_increment_generation :
    (OutboundPeerConnections.new.insert pid05 stub0).2 = 0 ∧
    (OutboundPeerConnections.new.insert pid05 stub0).1.generation = 1 ∧
    (OutboundPeerConnections.new.insert pid05 stub0).2 ≠
      (OutboundPeerConnections.new.insert pid05 stub0).1.generation ∧
    ((OutboundPeerConnections.new.insert pid05 stub0).1.remove pid05).2 = 1 ∧
    ((OutboundPeerConnections.new.insert pid05 stub0).1.remove pid05).1.generation = 2 := by
  decide

/-- C4: the claim says get_generational called with the generation last
returned by the registry returns None.  Because insert returns fetch_add's
previous value, calling get_generational with the generation just returned
by insert on a fresh registry yields Some (map, 1), not None. -/
theorem C4_get_generational_at_insert_return_is_some :
    ((OutboundPeerConnections.new.insert pid05 stub0).1.get_generational
        (OutboundPeerConnections.new.insert pid05 stub0).2) =
      some ((OutboundPeerConnections.new.insert pid05 stub0).1.peer_connections, 1) ∧
    ((OutboundPeerConnections.new.insert pid05 stub0).1.get_generational
        (OutboundPeerConnections.new.insert pid05 stub0).2) ≠ none := by
  decide

/-! ## Claims about send_rpc -/

/-- C3 counterexample: the claim says send_rpc never returns TooManyPending.
At a concrete input — peer present, encode succeeds, selected channel open
but at capacity — send_rpc returns exactly TooManyPending(1). -/
theorem C3_counterexample_full_channel_yields_tooManyPending :
    (senderFull.send_rpc regEmpty 5 toBytesN fromBytesN 7 3 10 0 0 false
        (.completed .canceled)).2 = .error (.tooManyPending 1) := by
  decide

/-- Chan.try_send fails with Full exactly when the channel is open and its
bounded capacity is exhausted. -/
theorem Chan_try_send_full_iff (c : Chan) (m : NetworkMessage) :
    c.try_send m = .error .full ↔ c.closed = false ∧ c.capacity ≤ c.queue.length := by
  unfold Chan.try_send
  by_cases h1 : c.closed <;> by_cases h2 : c.capacity ≤ c.queue.length <;> simp [h1, h2]

/-- C3 amended: the synchronous enqueue phase of send_rpc returns
TooManyPending(n) exactly when n = 1, the peer is present in the cached
map, encoding succeeds, and the channel selected by high_prio is open but
at capacity (a closed channel yields NotConnected instead). -/
theorem C3_amended_tooManyPending_iff_full {TMessage : Type} (st : NetworkSenderSt)
    (recipient : PeerId) (to_bytes : ProtocolId → TMessage → Except Unit Bytes)
    (protocol : ProtocolId) (req_msg : TMessage) (now deadline : Nat) (high_prio : Bool)
    (n : Nat) :
    (st.send_rpc_enqueue recipient to_bytes protocol req_msg now deadline high_prio).2 =
        .error (.tooManyPending n) ↔
      n = 1 ∧
      ∃ peer, mapFind? st.peers ⟨st.network_id, recipient⟩ = some peer ∧
        (∃ mdata, to_bytes protocol req_msg = .ok mdata) ∧
        (if high_prio then peer.sender_high_prio else peer.sender).closed = false ∧
        (if high_prio then peer.sender_high_prio else peer.sender).capacity ≤
          (if high_prio then peer.sender_high_prio else peer.sender).queue.length := by
  unfold NetworkSenderSt.send_rpc_enqueue
  cases hfind : mapFind? st.peers ⟨st.network_id, recipient⟩ with
  | none => simp [hfind]
  | some peer =>
    cases henc : to_bytes protocol req_msg with
    | error e => simp [hfind, henc]
    | ok mdata =>
      cases hts : (if high_prio then peer.sender_high_prio else peer.sender).try_send
          (NetworkMessage.rpcRequest protocol peer.rpc_counter 0 mdata) with
      | ok ch' =>
        simp only [hfind, henc, hts]
        constructor
        · intro h
          exact absurd h (by simp)
        · rintro ⟨-, peer', hpeer', -, h1, h2⟩
          rw [Option.some.injEq] at hpeer'
          subst hpeer'
          have hfull := (Chan_try_send_full_iff
            (if high_prio then peer.sender_high_prio else peer.sender)
            (NetworkMessage.rpcRequest protocol peer.rpc_counter 0 mdata)).2 ⟨h1, h2⟩
          rw [hts] at hfull
          exact absurd hfull (by simp)
      | error tse =>
        cases tse with
        | full =>
          have hcond := (Chan_try_send_full_iff
            (if high_prio then peer.sender_high_prio else peer.sender)
            (NetworkMessage.rpcRequest protocol peer.rpc_counter 0 mdata)).1 hts
          simp only [hfind, henc, hts]
          constructor
          · intro h
            have hn : n = 1 := by
              have := congrArg (fun r => match r with
                | Except.error (RpcError.tooManyPending k) => k
                | _ => 0) h
              simpa using this.symm
            exact ⟨hn, peer, rfl, ⟨mdata, rfl⟩, hcond.1, hcond.2⟩
          · rintro ⟨rfl, -⟩
            simp
        | closed =>
          simp only [hfind, henc, hts]
          constructor
          · intro h
            exact absurd h (by simp)
          · rintro ⟨-, peer', hpeer', -, h1, h2⟩
            rw [Option.some.injEq] at hpeer'
            subst hpeer'
            have hfull := (Chan_try_send_full_iff
              (if high_prio then peer.sender_high_prio else peer.sender)
              (NetworkMessage.rpcRequest protocol peer.rpc_counter 0 mdata)).2 ⟨h1, h2⟩
            rw [hts] at hfull
            exact absurd hfull (by simp)

/-- C3 amended witness: the amended characterization applied at a concrete
input whose selected channel is open but at capacity. -/
theorem C3_amended_witness :
    (senderFull.send_rpc_enqueue 5 toBytesN 7 3 0 10 false).2 =
      .error (.tooManyPending 1) :=
  (C3_amended_tooManyPending_iff_full senderFull 5 toBytesN 7 3 0 10 false 1).2
    ⟨rfl, stubFull, by decide, ⟨[3], by decide⟩, by decide, by decide⟩

/-- update_peers only refreshes the cached map and generation; the network
id of the sender is untouched. -/
theorem update_peers_network_id (st : NetworkSenderSt) (reg : OutboundPeerConnections) :
    (st.update_peers reg).network_id = st.network_id := by
  unfold NetworkSenderSt.update_peers
  cases reg.get_generational st.peers_generation with
  | none => rfl
  | some p => cases p; rfl

/-- update_peers only refreshes the cached map and generation; the role of
the sender is untouched. -/
theorem update_peers_role_type (st : NetworkSenderSt) (reg : OutboundPeerConnections) :
    (st.update_peers reg).role_type = st.role_type := by
  unfold NetworkSenderSt.update_peers
  cases reg.get_generational st.peers_generation with
  | none => rfl
  | some p => cases p; rfl

/-- Looking up the key just written by mapInsert returns the written value. -/
theorem mapFind?_mapInsert_self {β : Type} (l : List (PeerNetworkId × β)) (k : PeerNetworkId)
    (v : β) : mapFind? (mapInsert l k v) k = some v := by
  simp [mapInsert, mapFind?]

/-- C1 counterexample: the claim says a failed rpc enqueue leaves the
peer's OutboundRpcMatcher unchanged.  At a concrete input whose channel is
open but full, send_rpc returns an immediate error, yet the matcher goes
from empty to holding the correlation entry for the allocated request id 0:
the entry IS left behind. -/
theorem C1_counterexample_matcher_entry_left_behind :
    ((senderFull.send_rpc regEmpty 5 toBytesN fromBytesN 7 3 10 0 0 false
        (.completed .canceled)).2 = .error (.tooManyPending 1)) ∧
    ((mapFind? senderFull.peers pid05).map PeerStub.open_outbound_rpc = some []) ∧
    ((mapFind? (senderFull.send_rpc regEmpty 5 toBytesN fromBytesN 7 3 10 0 0 false
          (.completed .canceled)).1.peers pid05).map PeerStub.open_outbound_rpc =
      some [(0, ⟨7, 0, 10, 0, 0⟩)]) := by
  decide

/-- C1 amended: when the non-blocking enqueue of the request envelope fails
(channel full or closed), send_rpc returns an immediate error — the result
does not depend on the TimedWait argument, so the await phase is never
consulted — but the correlation entry inserted for the allocated request id
REMAINS in that peer's OutboundRpcMatcher (the matcher equals the old table
with exactly that entry added). -/
theorem C1_amended_enqueue_failure_error_and_entry_remains {TMessage : Type}
    (st : NetworkSenderSt) (reg : OutboundPeerConnections) (recipient : PeerId)
    (to_bytes : ProtocolId → TMessage → Except Unit Bytes)
    (from_bytes : ProtocolId → Bytes → Except Unit TMessage)
    (protocol : ProtocolId) (req_msg : TMessage) (timeout now now2 : Nat)
    (high_prio : Bool) (peer : PeerStub) (mdata : Bytes)
    (hpeer : mapFind? (st.update_peers reg).peers ⟨st.network_id, recipient⟩ = some peer)
    (henc : to_bytes protocol req_msg = .ok mdata)
    (hfail : ∀ ch', (if high_prio then peer.sender_high_prio else peer.sender).try_send
        (NetworkMessage.rpcRequest protocol peer.rpc_counter 0 mdata) ≠ .ok ch') :
    ∀ w w' : TimedWait,
      (∃ e, (st.send_rpc reg recipient to_bytes from_bytes protocol req_msg timeout now now2
          high_prio w).2 = .error e) ∧
      ((st.send_rpc reg recipient to_bytes from_bytes protocol req_msg timeout now now2
          high_prio w).2 =
        (st.send_rpc reg recipient to_bytes from_bytes protocol req_msg timeout now now2
          high_prio w').2) ∧
      ((mapFind? (st.send_rpc reg recipient to_bytes from_bytes protocol req_msg timeout now now2
            high_prio w).1.peers ⟨st.network_id, recipient⟩).map PeerStub.open_outbound_rpc =
        some (matcherInsert peer.open_outbound_rpc peer.rpc_counter
          ⟨protocol, now, now + timeout, st.network_id, st.role_type⟩)) := by
  intro w w'
  have hnid := update_peers_network_id st reg
  have hrole := update_peers_role_type st reg
  simp only [NetworkSenderSt.send_rpc, NetworkSenderSt.send_rpc_enqueue, hnid, hrole, hpeer,
    henc]
  cases hts : (if high_prio then peer.sender_high_prio else peer.sender).try_send
      (NetworkMessage.rpcRequest protocol peer.rpc_counter 0 mdata) with
  | ok ch' => exact absurd hts (hfail ch')
  | error tse =>
    cases tse with
    | full =>
      simp only [hts]
      exact ⟨⟨.tooManyPending 1, rfl⟩, by trivial, by simp [mapFind?_mapInsert_self]⟩
    | closed =>
      simp only [hts]
      exact ⟨⟨.notConnected recipient, rfl⟩, by trivial, by simp [mapFind?_mapInsert_self]⟩

/-- C1 witness: the amended theorem applied at the concrete full-channel
input, for two different wait outcomes. -/
theorem C1_amended_witness :
    (∃ e, (senderFull.send_rpc regEmpty 5 toBytesN fromBytesN 7 3 10 0 0 false
        .elapsed).2 = .error e) ∧
    ((senderFull.send_rpc regEmpty 5 toBytesN fromBytesN 7 3 10 0 0 false .elapsed).2 =
      (senderFull.send_rpc regEmpty 5 toBytesN fromBytesN 7 3 10 0 0 false
        (.completed .canceled)).2) ∧
    ((mapFind? (senderFull.send_rpc regEmpty 5 toBytesN fromBytesN 7 3 10 0 0 false
          .elapsed).1.peers ⟨senderFull.network_id, 5⟩).map PeerStub.open_outbound_rpc =
      some (matcherInsert stubFull.open_outbound_rpc stubFull.rpc_counter
        ⟨7, 0, 0 + 10, senderFull.network_id, senderFull.role_type⟩)) :=
  C1_amended_enqueue_failure_error_and_entry_remains senderFull regEmpty 5 toBytesN fromBytesN
    7 3 10 0 0 false stubFull [3] (by decide) (by decide)
    (fun ch' h => by simp [stubFull, Chan.try_send] at h)
    .elapsed (.completed .canceled)

/-- C5: once the request envelope was successfully enqueued, send_rpc's
result is decided by the bounded wait against deadline = now + timeout: if
the deadline has already elapsed when the remaining time is computed, or
the timed wait elapses, the call returns TimedOut; a completion slot
dropped without a value returns UnexpectedResponseChannelCancel; an
error-filled slot returns that error; and a value is decoded under the SAME
protocol codec used for the request, with decode failures surfaced. -/
theorem C5_await_phase_semantics {TMessage : Type} (st : NetworkSenderSt)
    (reg : OutboundPeerConnections) (recipient : PeerId)
    (to_bytes : ProtocolId → TMessage → Except Unit Bytes)
    (from_bytes : ProtocolId → Bytes → Except Unit TMessage)
    (protocol : ProtocolId) (req_msg : TMessage) (timeout now now2 : Nat) (high_prio : Bool)
    (hok : ((st.update_peers reg).send_rpc_enqueue recipient to_bytes protocol req_msg now
        (now + timeout) high_prio).2 = .ok ()) :
    (now + timeout < now2 →
      ∀ w, (st.send_rpc reg recipient to_bytes from_bytes protocol req_msg timeout now now2
          high_prio w).2 = .error .timedOut) ∧
    (¬ now + timeout < now2 →
      ((st.send_rpc reg recipient to_bytes from_bytes protocol req_msg timeout now now2
          high_prio .elapsed).2 = .error .timedOut) ∧
      ((st.send_rpc reg recipient to_bytes from_bytes protocol req_msg timeout now now2
          high_prio (.completed .canceled)).2 = .error .unexpectedResponseChannelCancel) ∧
      (∀ err, (st.send_rpc reg recipient to_bytes from_bytes protocol req_msg timeout now now2
          high_prio (.completed (.value (.error err)))).2 = .error err) ∧
      (∀ bytes, (st.send_rpc reg recipient to_bytes from_bytes protocol req_msg timeout now now2
          high_prio (.completed (.value (.ok bytes)))).2 =
        match from_bytes protocol bytes with
        | .ok x => .ok x
        | .error _ => .error .codecError)) := by
  have hsplit : ∀ w : TimedWait,
      (st.send_rpc reg recipient to_bytes from_bytes protocol req_msg timeout now now2
        high_prio w).2 = send_rpc_await (from_bytes protocol) (now + timeout) now2 w := by
    intro w
    unfold NetworkSenderSt.send_rpc
    cases hres : (st.update_peers reg).send_rpc_enqueue recipient to_bytes protocol req_msg now
        (now + timeout) high_prio with
    | mk st' r =>
      rw [hres] at hok
      simp only at hok
      subst hok
      simp [hres]
  constructor
  · intro hlt w
    rw [hsplit w]
    simp [send_rpc_await, hlt]
  · intro hge
    refine ⟨?_, ?_, ?_, ?_⟩
    · rw [hsplit .elapsed]; simp [send_rpc_await, hge]
    · rw [hsplit (.completed .canceled)]; simp [send_rpc_await, hge]
    · intro err
      rw [hsplit (.completed (.value (.error err)))]; simp [send_rpc_await, hge]
    · intro bytes
      rw [hsplit (.completed (.value (.ok bytes)))]
      simp only [send_rpc_await, if_neg hge]
      cases from_bytes protocol bytes <;> rfl

/-- C5 witness: the theorem applied at a concrete open-channel input whose
deadline has not yet elapsed, exercising the cancel branch and the
successful-decode branch. -/
theorem C5_await_phase_semantics_witness :
    ((senderOpen.update_peers regEmpty).send_rpc_enqueue 5 toBytesN 7 3 0 (0 + 10) false).2 =
        .ok () ∧
    ¬ 0 + 10 < 0 ∧
    ((senderOpen.send_rpc regEmpty 5 toBytesN fromBytesN 7 3 10 0 0 false
        (.completed .canceled)).2 = .error .unexpectedResponseChannelCancel) ∧
    ((senderOpen.send_rpc regEmpty 5 toBytesN fromBytesN 7 3 10 0 0 false
        (.completed (.value (.ok [4, 4])))).2 = .ok 2) := by
  have h := C5_await_phase_semantics senderOpen regEmpty 5 toBytesN fromBytesN 7 3 10 0 0
    false (by decide)
  refine ⟨by decide, by decide, (h.2 (by decide)).2.1, ?_⟩
  have h4 := (h.2 (by decide)).2.2.2 [4, 4]
  simpa using h4

/-- C6: send_to with a peer absent from the (freshly refreshed) cached map
fails with NotConnected, leaving the refreshed state untouched; with a
present peer, successful encoding, and the selected channel open but at
capacity it fails with PeerFullCondition.  The whole path is built from
Chan.try_send, the non-blocking primitive: no branch of send_to awaits
channel capacity. -/
theorem C6_send_to_absent_notConnected_full_peerFull {TMessage : Type}
    (st : NetworkSenderSt) (reg : OutboundPeerConnections) (recipient : PeerId)
    (to_bytes : TMessage → Except Unit Bytes) (protocol : ProtocolId)
    (message : TMessage) (high_prio : Bool) :
    (mapFind? (st.update_peers reg).peers ⟨st.network_id, recipient⟩ = none →
      st.send_to reg recipient to_bytes protocol message high_prio =
        (st.update_peers reg, .error .notConnected)) ∧
    (∀ peer mdata,
      mapFind? (st.update_peers reg).peers ⟨st.network_id, recipient⟩ = some peer →
      to_bytes message = .ok mdata →
      (if high_prio then peer.sender_high_prio else peer.sender).closed = false →
      (if high_prio then peer.sender_high_prio else peer.sender).capacity ≤
        (if high_prio then peer.sender_high_prio else peer.sender).queue.length →
      st.send_to reg recipient to_bytes protocol message high_prio =
        (st.update_peers reg, .error .peerFullCondition)) := by
  have hnid := update_peers_network_id st reg
  constructor
  · intro habs
    simp only [NetworkSenderSt.send_to, NetworkSenderSt.peer_try_send, hnid, habs]
  · intro peer mdata hpeer henc hopen hfull
    have hts : (if high_prio then peer.sender_high_prio else peer.sender).try_send
        (NetworkMessage.directSendMsg protocol 0 mdata) = .error .full :=
      (Chan_try_send_full_iff _ _).2 ⟨hopen, hfull⟩
    simp only [NetworkSenderSt.send_to, NetworkSenderSt.peer_try_send, hnid, hpeer, henc, hts]

/-- C6 witness: the theorem applied at concrete inputs: recipient 9 is
absent from the cached map (NotConnected); recipient 5 is present with an
open, full normal channel (PeerFullCondition). -/
theorem C6_witness :
    (mapFind? (senderOpen.update_peers regEmpty).peers ⟨senderOpen.network_id, 9⟩ = none ∧
      senderOpen.send_to regEmpty 9 toBytesNetN 7 3 false =
        (senderOpen.update_peers regEmpty, .error .notConnected)) ∧
    (mapFind? (senderFull.update_peers regEmpty).peers ⟨senderFull.network_id, 5⟩ =
        some stubFull ∧
      senderFull.send_to regEmpty 5 toBytesNetN 7 3 false =
        (senderFull.update_peers regEmpty, .error .peerFullCondition)) :=
  ⟨⟨by decide, (C6_send_to_absent_notConnected_full_peerFull senderOpen regEmpty 9 toBytesNetN
      7 3 false).1 (by decide)⟩,
   ⟨by decide, (C6_send_to_absent_notConnected_full_peerFull senderFull regEmpty 5 toBytesNetN
      7 3 false).2 stubFull [3] (by decide) (by decide) (by decide) (by decide)⟩⟩

/-- The per-recipient loop of send_to_many attempts every recipient: the
keys of its result list are exactly the recipients, in order. -/
theorem sendToManyLoop_keys (msg_src : Except NetworkError NetworkMessage) (high_prio : Bool)
    (network_id : Nat) :
    ∀ (recipients : List PeerId) (st : NetworkSenderSt),
      (sendToManyLoop st msg_src high_prio network_id recipients).2.map Prod.fst =
        recipients := by
  intro recipients
  induction recipients with
  | nil => intro st; rfl
  | cons r rest ih => intro st; simp [sendToManyLoop, ih]

/-- C9: when encoding succeeds, send_to_many encodes exactly once (the
encode-invocation count is 1), attempts a non-blocking enqueue for every
recipient even after failures (the per-recipient result list covers the
recipients in order), and returns Ok when no attempt failed, otherwise
the first error in recipient iteration order. -/
theorem C9_send_to_many_once_all_first_error {TMessage : Type} (st : NetworkSenderSt)
    (reg : OutboundPeerConnections) (recipients : List PeerId)
    (to_bytes : TMessage → Except Unit Bytes) (protocol : ProtocolId) (message : TMessage)
    (high_prio : Bool) (mdata : Bytes) (henc : to_bytes message = .ok mdata) :
    (st.send_to_many reg recipients to_bytes protocol message high_prio).2.2.1 = 1 ∧
    (st.send_to_many reg recipients to_bytes protocol message high_prio).2.2.2.map Prod.fst =
      recipients ∧
    (st.send_to_many reg recipients to_bytes protocol message high_prio).2.1 =
      (match ((st.send_to_many reg recipients to_bytes protocol message
          high_prio).2.2.2.filterMap errOf).head? with
       | none => .ok ()
       | some e => .error e) := by
  unfold NetworkSenderSt.send_to_many
  simp only [henc]
  cases hh : ((sendToManyLoop (st.update_peers reg)
      (.ok (NetworkMessage.directSendMsg protocol 0 mdata)) high_prio
      (st.update_peers reg).network_id recipients).2.filterMap errOf).head? with
  | none => simp [hh, sendToManyLoop_keys]
  | some e => simp [hh, sendToManyLoop_keys]

/-- C9 witness: the theorem applied at a concrete input with two
recipients, the first absent (its attempt fails with NotConnected) and the
second present with room: the call still attempts both and returns the
first error. -/
theorem C9_witness :
    toBytesNetN 3 = .ok [3] ∧
    (senderOpen.send_to_many regEmpty [9, 5] toBytesNetN 7 3 false).2.2.1 = 1 ∧
    (senderOpen.send_to_many regEmpty [9, 5] toBytesNetN 7 3 false).2.2.2.map Prod.fst =
      [9, 5] ∧
    (senderOpen.send_to_many regEmpty [9, 5] toBytesNetN 7 3 false).2.1 =
      (match ((senderOpen.send_to_many regEmpty [9, 5] toBytesNetN 7 3
          false).2.2.2.filterMap errOf).head? with
       | none => .ok ()
       | some e => .error e) :=
  ⟨by decide, C9_send_to_many_once_all_first_error senderOpen regEmpty [9, 5] toBytesNetN 7 3
    false [3] (by decide)⟩

/-- NetworkEvents::update_peers only refreshes the cached map and
generation; the done latch is untouched. -/
theorem events_update_peers_done (st : EventsSt) (reg : OutboundPeerConnections) :
    (st.update_peers reg).done = st.done := by
  unfold EventsSt.update_peers
  cases reg.get_generational st.peers_generation with
  | none => rfl
  | some p => cases p; rfl

/-- Loop invariant for the done latch: starting from an Active state, the
latch is set by one loop run exactly when the last source response the run
consumed is a terminal one (source exhaustion or an envelope whose payload
fails to decode). -/
theorem pollLoop_done_iff {TMessage : Type}
    (from_bytes : ProtocolId → Bytes → Except Unit TMessage)
    (reg : OutboundPeerConnections) :
    ∀ (fuel : Nat) (st : EventsSt) (src : List SourcePoll), st.done = false →
      ((pollLoop from_bytes reg fuel st src).st.done = true ↔
        ∃ s, (pollLoop from_bytes reg fuel st src).consumed.getLast? = some s ∧
          causesDone from_bytes s = true) := by
  intro fuel
  induction fuel with
  | zero => intro st src h; simp [pollLoop, h]
  | succ fuel ih =>
    intro st src h
    cases src with
    | nil => simp [pollLoop, h]
    | cons s rest =>
      cases s with
      | pending => simp [pollLoop, h, causesDone]
      | terminated => simp [pollLoop, causesDone]
      | item m =>
        cases hm : m.message with
        | error =>
          have h0 := ih st rest h
          cases hc : (pollLoop from_bytes reg fuel st rest).consumed with
          | nil =>
            rw [hc] at h0
            simp only [List.getLast?_nil] at h0
            simp only [pollLoop, hm, hc]
            simp [causesDone, hm, h0]
          | cons a l =>
            rw [hc] at h0
            simp only [pollLoop, hm, hc]
            simpa [List.getLast?_cons_cons] using h0
        | rpcRequest protocol request_id prio raw =>
          cases hfb : from_bytes protocol raw with
          | error e => simp [pollLoop, hm, hfb, causesDone]
          | ok x =>
            cases hfind : mapFind? (st.update_peers reg).peers m.sender with
            | none => simp [pollLoop, hm, hfb, hfind, causesDone, events_update_peers_done, h]
            | some stub =>
              simp [pollLoop, hm, hfb, hfind, causesDone, events_update_peers_done, h]
        | rpcResponse rid prio raw => simp [pollLoop, hm, h, causesDone]
        | directSendMsg protocol prio raw =>
          cases hfb : from_bytes protocol raw with
          | error e => simp [pollLoop, hm, hfb, causesDone]
          | ok x => simp [pollLoop, hm, hfb, causesDone, h]

/-- Loop invariant: whenever one loop run sets the done latch from an
Active state, it reports end of stream (Ready(None)). -/
theorem pollLoop_done_readyNone {TMessage : Type}
    (from_bytes : ProtocolId → Bytes → Except Unit TMessage)
    (reg : OutboundPeerConnections) :
    ∀ (fuel : Nat) (st : EventsSt) (src : List SourcePoll), st.done = false →
      (pollLoop from_bytes reg fuel st src).st.done = true →
      (pollLoop from_bytes reg fuel st src).result = PollResult.readyNone := by
  intro fuel
  induction fuel with
  | zero => intro st src h hdone; rw [show (pollLoop from_bytes reg 0 st src).st = st from rfl, h] at hdone; cases hdone
  | succ fuel ih =>
    intro st src h hdone
    cases src with
    | nil =>
      simp only [pollLoop] at hdone ⊢
      rw [h] at hdone; cases hdone
    | cons s rest =>
      cases s with
      | pending =>
        simp only [pollLoop] at hdone ⊢
        rw [h] at hdone; cases hdone
      | terminated => simp [pollLoop]
      | item m =>
        cases hm : m.message with
        | error =>
          simp only [pollLoop, hm] at hdone ⊢
          exact ih st rest h hdone
        | rpcRequest protocol request_id prio raw =>
          cases hfb : from_bytes protocol raw with
          | error e => simp [pollLoop, hm, hfb]
          | ok x =>
            cases hfind : mapFind? (st.update_peers reg).peers m.sender with
            | none =>
              simp only [pollLoop, hm, hfb, hfind] at hdone
              rw [events_update_peers_done, h] at hdone; cases hdone
            | some stub =>
              simp only [pollLoop, hm, hfb, hfind] at hdone
              rw [events_update_peers_done, h] at hdone; cases hdone
        | rpcResponse rid prio raw =>
          simp only [pollLoop, hm] at hdone
          rw [h] at hdone; cases hdone
        | directSendMsg protocol prio raw =>
          cases hfb : from_bytes protocol raw with
          | error e => simp [pollLoop, hm, hfb]
          | ok x =>
            simp only [pollLoop, hm, hfb] at hdone
            rw [h] at hdone; cases hdone

/-- C7: the demultiplexer is the two-state machine of the done latch.
Done is absorbing: a poll in the Done state yields end of stream
immediately, consuming nothing from the source (no re-poll) and changing
nothing, so no path returns to Active.  From the Active state, one poll
ends in Done exactly when the last source response it consumed is source
exhaustion or an RpcRequest/DirectSendMsg envelope whose payload fails to
decode; and every transition to Done is reported as end of stream. -/
theorem C7_two_state_machine {TMessage : Type}
    (from_bytes : ProtocolId → Bytes → Except Unit TMessage)
    (reg : OutboundPeerConnections) (st : EventsSt) (src : List SourcePoll) :
    (st.done = true →
      poll_next from_bytes reg st src =
        ⟨st, src, [], [], PollResult.readyNone⟩) ∧
    (st.done = false →
      ((poll_next from_bytes reg st src).st.done = true ↔
        ∃ s, (poll_next from_bytes reg st src).consumed.getLast? = some s ∧
          causesDone from_bytes s = true)) ∧
    (st.done = false → (poll_next from_bytes reg st src).st.done = true →
      (poll_next from_bytes reg st src).result = PollResult.readyNone) := by
  refine ⟨fun h => by simp [poll_next, h], fun h => ?_, fun h => ?_⟩
  · rw [show poll_next from_bytes reg st src = pollLoop from_bytes reg 9 st src from by
      simp [poll_next, h]]
    exact pollLoop_done_iff from_bytes reg 9 st src h
  · rw [show poll_next from_bytes reg st src = pollLoop from_bytes reg 9 st src from by
      simp [poll_next, h]]
    exact pollLoop_done_readyNone from_bytes reg 9 st src h

/-- C7 witness: the theorem applied at concrete inputs.  In the Done state
the poll yields end of stream leaving the trace untouched; from the Active
state, a direct-send envelope with the unregistered protocol tag 99 is a
decode failure, so the poll transitions to Done and yields end of stream. -/
theorem C7_witness :
    (poll_next fbSel regEmpty ⟨true, [], 0⟩ [.pending] =
      ⟨⟨true, [], 0⟩, [.pending], [], [], PollResult.readyNone⟩) ∧
    ((poll_next fbSel regEmpty ⟨false, [], 0⟩
        [.item ⟨NetworkMessage.directSendMsg 99 0 [1], pid05⟩]).st.done = true) ∧
    ((poll_next fbSel regEmpty ⟨false, [], 0⟩
        [.item ⟨NetworkMessage.directSendMsg 99 0 [1], pid05⟩]).result =
      PollResult.readyNone) := by
  have h1 := (C7_two_state_machine fbSel regEmpty ⟨true, [], 0⟩ [.pending]).1 rfl
  have h2 := (C7_two_state_machine fbSel regEmpty ⟨false, [], 0⟩
    [.item ⟨NetworkMessage.directSendMsg 99 0 [1], pid05⟩]).2.1 rfl
  have hdone : (poll_next fbSel regEmpty ⟨false, [], 0⟩
      [.item ⟨NetworkMessage.directSendMsg 99 0 [1], pid05⟩]).st.done = true :=
    h2.2 ⟨.item ⟨NetworkMessage.directSendMsg 99 0 [1], pid05⟩, by decide, by decide⟩
  have h3 := (C7_two_state_machine fbSel regEmpty ⟨false, [], 0⟩
    [.item ⟨NetworkMessage.directSendMsg 99 0 [1], pid05⟩]).2.2 rfl hdone
  exact ⟨h1, hdone, h3⟩

/-- Loop invariant for the discard bound: one loop run discards at most
fuel Error envelopes, and when it discards exactly fuel of them it reports
Pending (forward progress instead of an unbounded loop). -/
theorem pollLoop_error_discard_bound {TMessage : Type}
    (from_bytes : ProtocolId → Bytes → Except Unit TMessage)
    (reg : OutboundPeerConnections) :
    ∀ (fuel : Nat) (st : EventsSt) (src : List SourcePoll),
      ((pollLoop from_bytes reg fuel st src).consumed.countP isErrorEnvelope ≤ fuel) ∧
      ((pollLoop from_bytes reg fuel st src).consumed.countP isErrorEnvelope = fuel →
        (pollLoop from_bytes reg fuel st src).result = PollResult.pendingR) := by
  intro fuel
  induction fuel with
  | zero => intro st src; simp [pollLoop]
  | succ fuel ih =>
    intro st src
    cases src with
    | nil => simp [pollLoop]
    | cons s rest =>
      cases s with
      | pending => simp [pollLoop, isErrorEnvelope]
      | terminated =>
        constructor
        · simp [pollLoop, isErrorEnvelope]
        · intro hk
          simp [pollLoop, isErrorEnvelope] at hk
      | item m =>
        cases hm : m.message with
        | error =>
          have h0 := ih st rest
          constructor
          · simp only [pollLoop, hm]
            simp [List.countP_cons, isErrorEnvelope, hm]
            omega
          · intro hk
            simp only [pollLoop, hm] at hk ⊢
            simp [List.countP_cons, isErrorEnvelope, hm] at hk
            exact h0.2 (by omega)
        | rpcRequest protocol request_id prio raw =>
          cases hfb : from_bytes protocol raw with
          | error e =>
            constructor
            · simp [pollLoop, hm, hfb, isErrorEnvelope]
            · intro hk; simp [pollLoop, hm, hfb, isErrorEnvelope] at hk
          | ok x =>
            cases hfind : mapFind? (st.update_peers reg).peers m.sender with
            | none =>
              constructor
              · simp [pollLoop, hm, hfb, hfind, isErrorEnvelope]
              · intro hk; simp [pollLoop, hm, hfb, hfind, isErrorEnvelope] at hk
            | some stub =>
              constructor
              · simp [pollLoop, hm, hfb, hfind, isErrorEnvelope]
              · intro hk; simp [pollLoop, hm, hfb, hfind, isErrorEnvelope] at hk
        | rpcResponse rid prio raw =>
          constructor
          · simp [pollLoop, hm, isErrorEnvelope]
          · intro hk; simp [pollLoop, hm, isErrorEnvelope] at hk
        | directSendMsg protocol prio raw =>
          cases hfb : from_bytes protocol raw with
          | error e =>
            constructor
            · simp [pollLoop, hm, hfb, isErrorEnvelope]
            · intro hk; simp [pollLoop, hm, hfb, isErrorEnvelope] at hk
          | ok x =>
            constructor
            · simp [pollLoop, hm, hfb, isErrorEnvelope]
            · intro hk; simp [pollLoop, hm, hfb, isErrorEnvelope] at hk

/-- C8: per poll_next call, at most 9 Error envelopes are discarded (the
source loops for _ in 1..10); when the discard bound is reached the poll
reports Pending to the scheduler instead of looping on, and any item a poll
yields is a Message or RpcRequest event — Error envelopes are never
surfaced to the application. -/
theorem C8_bounded_discard_no_error_events {TMessage : Type}
    (from_bytes : ProtocolId → Bytes → Except Unit TMessage)
    (reg : OutboundPeerConnections) (st : EventsSt) (src : List SourcePoll) :
    ((poll_next from_bytes reg st src).consumed.countP isErrorEnvelope ≤ 9) ∧
    ((poll_next from_bytes reg st src).consumed.countP isErrorEnvelope = 9 →
      (poll_next from_bytes reg st src).result = PollResult.pendingR) ∧
    (∀ ev, (poll_next from_bytes reg st src).result = PollResult.readyEvent ev →
      (∃ s msg, ev = Event.message s msg) ∨
      (∃ s msg protocol, ev = Event.rpcRequest s msg protocol)) := by
  have hev : ∀ ev : Event TMessage,
      (∃ s msg, ev = Event.message s msg) ∨
      (∃ s msg protocol, ev = Event.rpcRequest s msg protocol) := by
    intro ev
    cases ev with
    | message s msg => exact Or.inl ⟨s, msg, rfl⟩
    | rpcRequest s msg protocol => exact Or.inr ⟨s, msg, protocol, rfl⟩
  by_cases h : st.done
  · refine ⟨?_, ?_, ?_⟩ <;> simp [poll_next, h]
  · have hb := pollLoop_error_discard_bound from_bytes reg 9 st src
    rw [show poll_next from_bytes reg st src = pollLoop from_bytes reg 9 st src from by
      simp [poll_next, h]]
    exact ⟨hb.1, hb.2, fun ev _ => hev ev⟩

/-- C8 witness: the theorem applied to a trace of 9 consecutive Error
envelopes: all 9 are discarded and the poll reports Pending. -/
theorem C8_witness :
    ((poll_next fbSel regEmpty ⟨false, [], 0⟩ (List.replicate 9 errItem)).consumed.countP
        isErrorEnvelope = 9) ∧
    ((poll_next fbSel regEmpty ⟨false, [], 0⟩ (List.replicate 9 errItem)).result =
      PollResult.pendingR) :=
  ⟨by decide,
   (C8_bounded_discard_no_error_events fbSel regEmpty ⟨false, [], 0⟩
      (List.replicate 9 errItem)).2.1 (by decide)⟩

/-- C10: an RpcRequest envelope that decodes successfully but whose sender
is absent from the freshly refreshed peer map makes the poll return Pending
without setting the done latch; the full-state equality shows the decoded
request survives nowhere (it is consumed from the trace and the successor
state holds no message), and no response-relay task is spawned. -/
theorem C10_rpc_request_absent_peer_dropped {TMessage : Type}
    (from_bytes : ProtocolId → Bytes → Except Unit TMessage)
    (reg : OutboundPeerConnections) (st : EventsSt) (sender : PeerNetworkId)
    (protocol : ProtocolId) (request_id : RequestId) (prio : Nat) (raw : Bytes)
    (rest : List SourcePoll) (x : TMessage)
    (hact : st.done = false)
    (hdec : from_bytes protocol raw = .ok x)
    (habs : mapFind? (st.update_peers reg).peers sender = none) :
    poll_next from_bytes reg st
        (.item ⟨NetworkMessage.rpcRequest protocol request_id prio raw, sender⟩ :: rest) =
      ⟨st.update_peers reg, rest,
        [.item ⟨NetworkMessage.rpcRequest protocol request_id prio raw, sender⟩], [],
        PollResult.pendingR⟩ ∧
    (st.update_peers reg).done = false := by
  constructor
  · simp [poll_next, hact, pollLoop, hdec, habs]
  · rw [events_update_peers_done]; exact hact

/-- C10 witness: the theorem applied at a concrete input whose sender is
absent from the (empty) refreshed peer map. -/
theorem C10_witness :
    poll_next fbSel regEmpty ⟨false, [], 0⟩
        [.item ⟨NetworkMessage.rpcRequest 7 3 0 [1, 2], pid05⟩] =
      ⟨EventsSt.update_peers ⟨false, [], 0⟩ regEmpty, [],
        [.item ⟨NetworkMessage.rpcRequest 7 3 0 [1, 2], pid05⟩], [], PollResult.pendingR⟩ ∧
    (EventsSt.update_peers ⟨false, [], 0⟩ regEmpty).done = false :=
  C10_rpc_request_absent_peer_dropped fbSel regEmpty ⟨false, [], 0⟩ pid05 7 3 0 [1, 2] [] 2
    rfl (by decide) (by decide)

end AptosNet
